import Mathlib

/-! IMU telemetry sketch (`src/imu_collection.cpp`)

A shallow embedding of the sketch: the one-time bring-up `setup`, the steady-state
`loop`, the two connection helpers and the JSON serialisation, followed by the
properties of the specification.

* Calls into the board libraries (Serial, WiFi, PubSubClient, the MPU6050 driver,
  `millis`, `delay`) are recorded as a trace of `Effect`s; what those calls return is
  supplied by an environment record.
* `unsigned long` is 32 bits wide on the ESP32: it is a `Nat` reduced modulo `2^32`.
* A `float` reading is an IEEE-754 value: NaN, an infinity, or a signed dyadic number.
  `%.4f` and `Serial.print(x, 4)` are modelled on these exact values.
-/

set_option maxRecDepth 100000

namespace ImuCollection

/-! ## Text helpers -/

/-- The ASCII digit for `d < 10`. -/
def digitChar (d : Nat) : Char := Char.ofNat (48 + d)

/-- Digit loop shared by `%lu` and `Print::printNumber` in base 10: emit `n % 10`, divide,
repeat while the quotient is non-zero. -/
def decimalAux : Nat → Nat → List Char → List Char
  | 0, _, acc => acc
  | fuel + 1, n, acc =>
    if n / 10 = 0 then digitChar (n % 10) :: acc
    else decimalAux fuel (n / 10) (digitChar (n % 10) :: acc)

/-- Decimal rendering of an unsigned integer, most significant digit first. -/
def decimal (n : Nat) : List Char := decimalAux (n + 1) n []

/-- Exactly four decimal digits of `k % 10000`, zero padded. -/
def pad4 (k : Nat) : List Char :=
  [digitChar (k / 1000 % 10), digitChar (k / 100 % 10), digitChar (k / 10 % 10), digitChar (k % 10)]

/-- Round the non-negative rational `n / d` to the nearest integer, ties to even. -/
def roundHalfEven (n d : Nat) : Nat :=
  let q := n / d
  let r := n % d
  if d < 2 * r ∨ (2 * r = d ∧ q % 2 = 1) then q + 1 else q

/-! ## Floating-point values -/

/-- The value of a C `float` (or `double`): a NaN with its sign bit, a signed infinity, or
the finite number `(-1)^neg * m * 2^e` (so `fin true 0 0` is negative zero). -/
inductive CFloat where
  | nan (neg : Bool)
  | inf (neg : Bool)
  | fin (neg : Bool) (m : Nat) (e : Int)
  deriving DecidableEq, Repr

/-- Numerator of `m * 2^e` written as a fraction of naturals. -/
def dyNum (m : Nat) (e : Int) : Nat := m * 2 ^ e.toNat

/-- Denominator of `m * 2^e` written as a fraction of naturals. -/
def dyDen (e : Int) : Nat := 2 ^ (-e).toNat

/-- The value is an IEEE-754 binary32 number (24-bit significand, exponent range of `float`). -/
def CFloat.isBinary32 : CFloat → Bool
  | .nan _ => true
  | .inf _ => true
  | .fin _ m e => decide (m < 2 ^ 24) && decide (-149 ≤ e) && decide (e ≤ 104)

/-- The reading is finite and its absolute value is below `bound`. -/
def CFloat.absLt (bound : Nat) : CFloat → Bool
  | .nan _ => false
  | .inf _ => false
  | .fin _ m e => decide (dyNum m e < bound * dyDen e)

/-! ## `snprintf` conversions -/

/-- Fixed notation with four fractional digits of `± n / 10000`. -/
def fixed4 (neg : Bool) (n : Nat) : List Char :=
  (if neg then ['-'] else []) ++ decimal (n / 10000) ++ '.' :: pad4 (n % 10000)

/-- The `%.4f` conversion of C `printf`: the value rounded to four fractional digits (to
nearest, ties to even, as the C library does on the exact binary value), with a leading
minus sign when the sign bit is set; `[-]nan` and `[-]inf` for the non-finite values. -/
def fmtF4 : CFloat → List Char
  | .nan neg => (if neg then ['-'] else []) ++ ['n', 'a', 'n']
  | .inf neg => (if neg then ['-'] else []) ++ ['i', 'n', 'f']
  | .fin neg m e => fixed4 neg (roundHalfEven (dyNum m e * 10000) (dyDen e))

/-- The `%lu` conversion: the decimal digits of a 32-bit `unsigned long`. -/
def fmtLu (n : Nat) : List Char := decimal (n % 4294967296)

/-- What `snprintf(buf, size, ...)` leaves in `buf` as a C string when the complete
formatted text is `full`: at most `size - 1` characters, the rest is cut off. -/
def snprintf (size : Nat) (full : List Char) : List Char := full.take (size - 1)

/-! ## `Serial.print(double, digits)` (Arduino core `Print::printFloat`) -/

/-- A finite non-negative `double` value `m * 2^e`. -/
structure Dbl where
  m : Nat
  e : Int
  deriving DecidableEq, Repr

/-- Number of binary digits of `n`. -/
def bitLenAux : Nat → Nat → Nat
  | 0, _ => 0
  | fuel + 1, n => if n = 0 then 0 else bitLenAux fuel (n / 2) + 1

/-- Number of binary digits of `n` (`0` for `0`). -/
def bitLen (n : Nat) : Nat := bitLenAux n n

/-- IEEE-754 round-to-nearest-even of the non-negative rational `n / d` to a 53-bit
significand (the exponent range of `double` is not a limit for the values met here). -/
def roundDbl (n d : Nat) : Dbl :=
  if n = 0 then ⟨0, 0⟩
  else
    let s : Int := (bitLen n : Int) - (bitLen d : Int) - 53
    let s2 : Int := if 2 ^ 53 ≤ (n * 2 ^ (-s).toNat) / (d * 2 ^ s.toNat) then s + 1 else s
    ⟨roundHalfEven (n * 2 ^ (-s2).toNat) (d * 2 ^ s2.toNat), s2⟩

/-- Numerator of a `Dbl`. -/
def Dbl.num (x : Dbl) : Nat := dyNum x.m x.e

/-- Denominator of a `Dbl`. -/
def Dbl.den (x : Dbl) : Nat := dyDen x.e

/-- Sum of two doubles, `a + b`, rounded. -/
def Dbl.add (a b : Dbl) : Dbl := roundDbl (a.num * b.den + b.num * a.den) (a.den * b.den)

/-- Difference `a - (double) k` for an integer `k` not above `a`, rounded. -/
def Dbl.subNat (a : Dbl) (k : Nat) : Dbl := roundDbl (a.num - k * a.den) a.den

/-- Product `a * 10.0`, rounded. -/
def Dbl.mul10 (a : Dbl) : Dbl := roundDbl (a.num * 10) a.den

/-- Quotient `a / 10.0`, rounded. -/
def Dbl.div10 (a : Dbl) : Dbl := roundDbl a.num (a.den * 10)

/-- Conversion to an integer type: the integer part. -/
def Dbl.trunc (a : Dbl) : Nat := a.num / a.den

/-- The `rounding` variable of `printFloat`: `0.5`, then `rounding /= 10.0` once per digit. -/
def roundingConst : Nat → Dbl
  | 0 => ⟨1, -1⟩
  | k + 1 => (roundingConst k).div10

/-- The digit-extraction loop of `printFloat`: `remainder *= 10.0; toPrint = int(remainder);
print(toPrint); remainder -= toPrint`. -/
def fracDigits : Nat → Dbl → List Char
  | 0, _ => []
  | k + 1, r =>
    let r10 := r.mul10
    decimal r10.trunc ++ fracDigits k (r10.subNat r10.trunc)

/-- The Arduino core routine behind `Serial.print(x, digits)` for a floating-point `x`:
`nan` (for either sign), `inf` (for either infinity), `ovf` beyond `±4294967040.0`; otherwise a minus sign
when `x < 0.0`, then `x + rounding` split into its integer part and `digits` fractional
digits extracted one at a time, all in `double` arithmetic. -/
def printFloat (x : CFloat) (digits : Nat) : List Char :=
  match x with
  | .nan _ => ['n', 'a', 'n']
  | .inf _ => ['i', 'n', 'f']
  | .fin neg m e =>
    if 4294967040 * dyDen e < dyNum m e then ['o', 'v', 'f']
    else
      let number := Dbl.add ⟨m, e⟩ (roundingConst digits)
      let int_part := number.trunc % 4294967296
      (if neg && decide (m ≠ 0) then ['-'] else []) ++ decimal int_part
        ++ (if 0 < digits then ['.'] else [])
        ++ fracDigits digits (number.subNat int_part)

/-- `Serial.print(n)` for an `unsigned long`: its decimal digits (`Print::printNumber`, base 10). -/
def printULong (n : Nat) : List Char := decimal (n % 4294967296)

/-! ## Configuration, effects and environment -/

/-- The constants of `certs.h`, `mqtt_config.h` and `secrets.h` used by the sketch. -/
structure Config where
  MQTT_USER : String
  MQTT_PSWD : String
  MQTT_TOPIC_IMU_TEST : String
  MQTT_SERVER_HIVEMQ_PRIVATE : String
  MQTT_PORT_HIVEMQ_TLS : Nat
  WIFI_SSID : String
  WIFI_EAP_ID : String
  WIFI_USER : String
  WIFI_PASSWORD : String
  root_ca : String

/-- The three sensor settings written by `setup`. -/
inductive MpuSetting where
  | accelerometerRange16G
  | gyroRange1000Deg
  | highPassFilter0_63Hz
  deriving DecidableEq, Repr

/-- One call into a board library, in program order. -/
inductive Effect where
  | serialBegin (baud : Nat)
  | serialPrint (text : String)
  | serialPrintln (text : String)
  | delay (ms : Nat)
  | mpuBegin
  | mpuSet (setting : MpuSetting)
  | mpuGetEvent
  | millis
  | wifiMode
  | wifiBegin (ssid eapId user password : String)
  | wifiStatus
  | setCACert (cert : String)
  | mqttSetServer (host : String) (port : Nat)
  | mqttConnected
  | mqttConnect (clientId : String) (credentials : Option (String × String))
  | mqttLoop
  | mqttPublish (topic payload : String)
  deriving DecidableEq, Repr

/-- The effect touches the network side (WiFi, TLS client or MQTT client). -/
def Effect.isNetwork : Effect → Bool
  | .wifiMode => true
  | .wifiBegin _ _ _ _ => true
  | .wifiStatus => true
  | .setCACert _ => true
  | .mqttSetServer _ _ => true
  | .mqttConnected => true
  | .mqttConnect _ _ => true
  | .mqttLoop => true
  | .mqttPublish _ _ => true
  | _ => false

/-- The effect is a session-establishment attempt (`mqttClient.connect`). -/
def Effect.isConnect : Effect → Bool
  | .mqttConnect _ _ => true
  | _ => false

/-- The effect is a publish call. -/
def Effect.isPublish : Effect → Bool
  | .mqttPublish _ _ => true
  | _ => false

/-- The characters an effect puts on the serial line (`println` appends CR LF). -/
def Effect.serialChars : Effect → List Char
  | .serialPrint t => t.data
  | .serialPrintln t => t.data ++ ['\r', '\n']
  | _ => []

/-- Everything a trace writes to the serial line. -/
def serialOutput (t : List Effect) : List Char := (t.map Effect.serialChars).flatten

/-- The six values of one `mpu.getEvent` call that the sketch uses. -/
structure Reading where
  ax : CFloat
  ay : CFloat
  az : CFloat
  gx : CFloat
  gy : CFloat
  gz : CFloat
  deriving DecidableEq, Repr

/-- What the libraries return during one run of `loop`. -/
structure LoopEnv where
  mqttConnected : Bool
  wifiUp : Bool
  connectOk : Bool
  millis : Nat
  reading : Reading
  publishOk : Bool

/-- What the libraries return during `setup`: `mpu.begin()`, the successive
`WiFi.status() == WL_CONNECTED` polls, and the results seen by `connectToMQTT`. -/
structure BootEnv where
  mpuPresent : Bool
  wifiPoll : Nat → Bool
  wifiUp : Bool
  connectOk : Bool

/-- The global variable of the sketch. -/
structure State where
  lastPublishMs : Nat
  deriving DecidableEq, Repr

/-- The initial value `lastPublishMs = 0`. -/
def State.init : State := ⟨0⟩

/-- The trace of a routine that may block forever, cut after `fuel` rounds of its waiting
loop, and whether the routine has returned. -/
structure Outcome where
  trace : List Effect
  returned : Bool
  deriving DecidableEq, Repr

/-! ## The sketch -/

/-- Subtraction of two `unsigned long` values. -/
def sub32 (a b : Nat) : Nat := (a + (4294967296 - b % 4294967296)) % 4294967296

/-- `connectToMQTT(enableTLS)`: print the WiFi status, then one `mqttClient.connect` under
the client id `ESP32Client`, with credentials when `enableTLS`; returns its result. -/
def connectToMQTT (cfg : Config) (enableTLS wifiUp connectOk : Bool) : Bool × List Effect :=
  (connectOk,
    [.serialPrint "WiFi status: ", .wifiStatus,
     .serialPrintln (if wifiUp then "Connected" else "Disconnected"),
     if enableTLS then .mqttConnect "ESP32Client" (some (cfg.MQTT_USER, cfg.MQTT_PSWD))
     else .mqttConnect "ESP32Client" none])

/-- The loop `while (WiFi.status() != WL_CONNECTED) { delay(500); Serial.print("."); }`,
from poll number `k` on. -/
def wifiWait : Nat → (Nat → Bool) → Nat → Outcome
  | 0, _, _ => ⟨[], false⟩
  | fuel + 1, poll, k =>
    if poll k then ⟨[.wifiStatus], true⟩
    else
      let rest := wifiWait fuel poll (k + 1)
      ⟨[.wifiStatus, .delay 500, .serialPrint "."] ++ rest.trace, rest.returned⟩

/-- `connectToWifi()`. -/
def connectToWifi (cfg : Config) (poll : Nat → Bool) (fuel : Nat) : Outcome :=
  let w := wifiWait fuel poll 0
  ⟨[.wifiMode, .wifiBegin cfg.WIFI_SSID cfg.WIFI_EAP_ID cfg.WIFI_USER cfg.WIFI_PASSWORD,
    .serialPrint "Connecting to WiFi"] ++ w.trace, w.returned⟩

/-- `setup()` for the value `mode` of `LOGGING_MODE`. -/
def setup (mode : Nat) (cfg : Config) (env : BootEnv) (fuel : Nat) : Outcome :=
  if env.mpuPresent then
    let sensor : List Effect :=
      [.serialBegin 115200, .mpuBegin, .mpuSet .accelerometerRange16G,
       .mpuSet .gyroRange1000Deg, .mpuSet .highPassFilter0_63Hz]
    if mode = 2 then
      let w := connectToWifi cfg env.wifiPoll fuel
      if w.returned then
        ⟨sensor ++ w.trace
          ++ [.setCACert cfg.root_ca,
              .mqttSetServer cfg.MQTT_SERVER_HIVEMQ_PRIVATE cfg.MQTT_PORT_HIVEMQ_TLS]
          ++ (connectToMQTT cfg true env.wifiUp env.connectOk).2, true⟩
      else ⟨sensor ++ w.trace, false⟩
    else ⟨sensor, true⟩
  else
    ⟨[.serialBegin 115200, .mpuBegin, .serialPrintln "Failed to find MPU6050 chip"]
      ++ List.replicate fuel (.delay 100), false⟩

/-- The text produced by the format string of `loop` before it is stored in the buffer. -/
def formatPayload (now : Nat) (r : Reading) : List Char :=
  "\x7b\"ts\":".data ++ fmtLu now ++ ",\"ax\":".data ++ fmtF4 r.ax
    ++ ",\"ay\":".data ++ fmtF4 r.ay ++ ",\"az\":".data ++ fmtF4 r.az
    ++ ",\"gx\":".data ++ fmtF4 r.gx ++ ",\"gy\":".data ++ fmtF4 r.gy
    ++ ",\"gz\":".data ++ fmtF4 r.gz ++ "\x7d".data

/-- The C string left in `char payload[256]` by the `snprintf` call of `loop`. -/
def payload (now : Nat) (r : Reading) : String := ⟨snprintf 256 (formatPayload now r)⟩

/-- The `Serial.print` sequence of `loop` under `LOGGING_MODE == 1`. -/
def serialSample (now : Nat) (r : Reading) : List Effect :=
  [.serialPrint "\x7b\"ts\":", .serialPrint ⟨printULong now⟩,
   .serialPrint ",\"ax\":", .serialPrint ⟨printFloat r.ax 4⟩,
   .serialPrint ",\"ay\":", .serialPrint ⟨printFloat r.ay 4⟩,
   .serialPrint ",\"az\":", .serialPrint ⟨printFloat r.az 4⟩,
   .serialPrint ",\"gx\":", .serialPrint ⟨printFloat r.gx 4⟩,
   .serialPrint ",\"gy\":", .serialPrint ⟨printFloat r.gy 4⟩,
   .serialPrint ",\"gz\":", .serialPrint ⟨printFloat r.gz 4⟩,
   .serialPrintln "\x7d"]

/-- The part of `loop` guarded by `LOGGING_MODE == 2`: reconnect if the session is down,
then `mqttClient.loop()`. -/
def sessionUpkeep (mode : Nat) (cfg : Config) (env : LoopEnv) : List Effect :=
  if mode = 2 then
    (Effect.mqttConnected ::
      (if env.mqttConnected then [] else (connectToMQTT cfg true env.wifiUp env.connectOk).2))
      ++ [Effect.mqttLoop]
  else []

/-- The output of one sample under the three values of `LOGGING_MODE`. -/
def emitSample (mode : Nat) (cfg : Config) (now : Nat) (r : Reading) : List Effect :=
  if mode = 1 then serialSample now r
  else if mode = 2 then [.mqttPublish cfg.MQTT_TOPIC_IMU_TEST (payload now r)]
  else []

/-- One run of `loop()`: the new state and the calls made. -/
def loop (mode : Nat) (cfg : Config) (env : LoopEnv) (st : State) : State × List Effect :=
  let now := env.millis % 4294967296
  if 10 ≤ sub32 now st.lastPublishMs then
    (⟨now⟩, sessionUpkeep mode cfg env ++ [.millis, .mpuGetEvent] ++ emitSample mode cfg now env.reading)
  else
    (st, sessionUpkeep mode cfg env ++ [.millis])

/-- Successive runs of `loop()`, one per environment record. -/
def runLoop (mode : Nat) (cfg : Config) : List LoopEnv → State → State × List Effect
  | [], st => (st, [])
  | env :: envs, st =>
    let r := loop mode cfg env st
    let rs := runLoop mode cfg envs r.1
    (rs.1, r.2 ++ rs.2)

/-- The timestamps of the iterations of a run in which the sensor was read. -/
def readingTimes (mode : Nat) (cfg : Config) : List LoopEnv → State → List Nat
  | [], _ => []
  | env :: envs, st =>
    let r := loop mode cfg env st
    (if Effect.mpuGetEvent ∈ r.2 then [env.millis % 4294967296] else [])
      ++ readingTimes mode cfg envs r.1

/-- The Arduino entry sequence: `setup()` once, then `loop()` again and again, which is
reached only when `setup()` returns. -/
def program (mode : Nat) (cfg : Config) (boot : BootEnv) (fuel : Nat) (envs : List LoopEnv) :
    List Effect :=
  let s := setup mode cfg boot fuel
  if s.returned then s.trace ++ (runLoop mode cfg envs State.init).2 else s.trace

/-! ## Vocabulary of the specification -/

/-- The finite value `m * 2^e` with a normalised 24-bit significand is a binary32 number
nearest to the decimal `p / 10000`. -/
def nearestBinary32 (m : Nat) (e : Int) (p : Nat) : Bool :=
  decide (2 ^ 23 ≤ m) && decide (m < 2 ^ 24) && decide (-149 ≤ e) && decide (e ≤ 104)
    && decide (20000 * dyNum m e ≤ 2 * p * dyDen e + 10000 * dyNum 1 e)
    && decide (2 * p * dyDen e ≤ 20000 * dyNum m e + 10000 * dyNum 1 e)

/-- The sample of the specification: the `float` values of `0.1234`, `-9.8001`, `0.0312`
(acceleration) and `1.0000`, `-0.5000`, `0.0001` (angular velocity). -/
def sampleC1 : Reading :=
  { ax := .fin false 16562468 (-27), ay := .fin true 10276150 (-20),
    az := .fin false 16750372 (-29), gx := .fin false 8388608 (-23),
    gy := .fin true 8388608 (-24), gz := .fin false 13743895 (-37) }

/-- The payload the specification expects for `sampleC1` at `now = 10023`. -/
def expectedC1 : String :=
  "\x7b\"ts\":10023,\"ax\":0.1234,\"ay\":-9.8001,\"az\":0.0312,\"gx\":1.0000,\"gy\":-0.5000,\"gz\":0.0001\x7d"

/-- The number written by a string of decimal digits. -/
def digitsValue (s : List Char) : Nat := s.foldl (fun a c => 10 * a + (c.toNat - 48)) 0

/-- A non-empty string of decimal digits. -/
def IsDigits (s : List Char) : Prop := s ≠ [] ∧ ∀ c ∈ s, c.isDigit = true

/-- A decimal numeral: a non-empty string of digits with no leading zero, except `0` itself. -/
def IsNumeral (s : List Char) : Prop := IsDigits s ∧ (s.head? = some '0' → s = ['0'])

/-- A decimal with exactly four digits after the decimal point: an optional minus sign, a
numeral, a point, four digits. -/
def IsFixed4 (s : List Char) : Prop :=
  ∃ sign ip fr : List Char, s = sign ++ ip ++ '.' :: fr ∧ (sign = [] ∨ sign = ['-'])
    ∧ IsNumeral ip ∧ fr.length = 4 ∧ ∀ c ∈ fr, c.isDigit = true

/-- A single JSON object with exactly the keys `ts, ax, ay, az, gx, gy, gz` in that order,
`ts` being the decimal numeral of `ts` and the six others decimals with four fractional
digits. -/
def IsSampleJson (s : List Char) (ts : Nat) : Prop :=
  ∃ t ax ay az gx gy gz : List Char,
    s = "\x7b\"ts\":".data ++ t ++ ",\"ax\":".data ++ ax ++ ",\"ay\":".data ++ ay
        ++ ",\"az\":".data ++ az ++ ",\"gx\":".data ++ gx ++ ",\"gy\":".data ++ gy
        ++ ",\"gz\":".data ++ gz ++ "\x7d".data
    ∧ IsNumeral t ∧ digitsValue t = ts
    ∧ IsFixed4 ax ∧ IsFixed4 ay ∧ IsFixed4 az ∧ IsFixed4 gx ∧ IsFixed4 gy ∧ IsFixed4 gz

/-- The same value on all six axes. -/
def Reading.all (x : CFloat) : Reading := ⟨x, x, x, x, x, x⟩

/-- All six values of a reading are binary32 numbers. -/
def Reading.isBinary32 (r : Reading) : Bool :=
  r.ax.isBinary32 && r.ay.isBinary32 && r.az.isBinary32
    && r.gx.isBinary32 && r.gy.isBinary32 && r.gz.isBinary32

/-- The reading with `99.65625 = 3189 / 32` as x acceleration and zero elsewhere. -/
def tieReading : Reading :=
  { ax := .fin false 3189 (-5), ay := .fin false 0 0, az := .fin false 0 0,
    gx := .fin false 0 0, gy := .fin false 0 0, gz := .fin false 0 0 }

/-- All six values of a reading are finite with absolute value below `bound`. -/
def Reading.absLt (bound : Nat) (r : Reading) : Bool :=
  r.ax.absLt bound && r.ay.absLt bound && r.az.absLt bound
    && r.gx.absLt bound && r.gy.absLt bound && r.gz.absLt bound

/-- A configuration used to run the sketch on concrete inputs. -/
def demoConfig : Config :=
  { MQTT_USER := "user", MQTT_PSWD := "pswd", MQTT_TOPIC_IMU_TEST := "imu/test",
    MQTT_SERVER_HIVEMQ_PRIVATE := "broker.example", MQTT_PORT_HIVEMQ_TLS := 8883,
    WIFI_SSID := "ssid", WIFI_EAP_ID := "id", WIFI_USER := "wuser",
    WIFI_PASSWORD := "wpass", root_ca := "ca" }

/-- An environment in which the clock reads 10023, the session is up and the sensor returns
`tieReading`. -/
def tieEnv : LoopEnv := ⟨true, true, true, 10023, tieReading, true⟩

/-- An environment in which the clock reads `ms`, the session is up and the sensor returns
`sampleC1`. -/
def envAt (ms : Nat) : LoopEnv := ⟨true, true, true, ms, sampleC1, true⟩

/-- The calls made after the session upkeep in network-publish mode: the clock read and,
when the interval has elapsed, the sensor read and the publish. -/
def samplingCalls (cfg : Config) (ms : Nat) (r : Reading) (st : State) : List Effect :=
  Effect.millis ::
    (if 10 ≤ sub32 (ms % 4294967296) st.lastPublishMs then
      [Effect.mpuGetEvent, Effect.mqttPublish cfg.MQTT_TOPIC_IMU_TEST (payload (ms % 4294967296) r)]
    else [])

/-- The trace of `setup()` up to the halt when the sensor is absent. -/
def haltTrace (fuel : Nat) : List Effect :=
  [.serialBegin 115200, .mpuBegin, .serialPrintln "Failed to find MPU6050 chip"]
    ++ List.replicate fuel (.delay 100)

/-! ## Auxiliary lemmas -/

theorem sub32_eq (a b : Nat) :
    (sub32 a b : Int) = ((a : Int) - (b : Int)) % 4294967296 := by
  unfold sub32
  omega

theorem sub32_of_le (a b : Nat) (ha : a < 4294967296) (hba : b ≤ a) : sub32 a b = a - b := by
  unfold sub32
  omega

theorem sessionUpkeep_no_getEvent (mode : Nat) (cfg : Config) (env : LoopEnv) :
    Effect.mpuGetEvent ∉ sessionUpkeep mode cfg env := by
  unfold sessionUpkeep connectToMQTT
  split
  · split <;> simp
  · simp

theorem emitSample_no_getEvent (mode : Nat) (cfg : Config) (now : Nat) (r : Reading) :
    Effect.mpuGetEvent ∉ emitSample mode cfg now r := by
  unfold emitSample serialSample
  split
  · simp
  · split <;> simp

theorem loop_reads_iff (mode : Nat) (cfg : Config) (env : LoopEnv) (st : State) :
    Effect.mpuGetEvent ∈ (loop mode cfg env st).2
      ↔ 10 ≤ sub32 (env.millis % 4294967296) st.lastPublishMs := by
  have h1 := sessionUpkeep_no_getEvent mode cfg env
  have h2 := emitSample_no_getEvent mode cfg (env.millis % 4294967296) env.reading
  unfold loop
  by_cases h : 10 ≤ sub32 (env.millis % 4294967296) st.lastPublishMs
  · simp [h]
  · simp [h, h1]

theorem loop_count_getEvent (mode : Nat) (cfg : Config) (env : LoopEnv) (st : State) :
    (loop mode cfg env st).2.count Effect.mpuGetEvent
      = if 10 ≤ sub32 (env.millis % 4294967296) st.lastPublishMs then 1 else 0 := by
  have h1 := List.count_eq_zero.mpr (sessionUpkeep_no_getEvent mode cfg env)
  have h2 := List.count_eq_zero.mpr
    (emitSample_no_getEvent mode cfg (env.millis % 4294967296) env.reading)
  unfold loop
  by_cases h : 10 ≤ sub32 (env.millis % 4294967296) st.lastPublishMs
  · simp [h, List.count_append, h1, h2, List.count_cons]
  · simp [h, List.count_append, h1, List.count_cons]

theorem loop_state (mode : Nat) (cfg : Config) (env : LoopEnv) (st : State) :
    (loop mode cfg env st).1
      = if 10 ≤ sub32 (env.millis % 4294967296) st.lastPublishMs
        then ⟨env.millis % 4294967296⟩ else st := by
  by_cases h : 10 ≤ sub32 (env.millis % 4294967296) st.lastPublishMs
  · simp [loop, h]
  · simp [loop, h]

/-! ## C1: the worked example -/

/-- C1: with `now = 10023` and the sample reading, `loop()` in network-publish mode reads the
sensor and publishes exactly the expected string (whatever the session state and the
library results), and the six values are the `float`s nearest to the decimals of the spec. -/
theorem C1_example_payload (cfg : Config) (mc wu co po : Bool) :
    (loop 2 cfg ⟨mc, wu, co, 10023, sampleC1, po⟩ State.init).2
        = sessionUpkeep 2 cfg ⟨mc, wu, co, 10023, sampleC1, po⟩
          ++ [.millis, .mpuGetEvent, .mqttPublish cfg.MQTT_TOPIC_IMU_TEST expectedC1]
      ∧ payload 10023 sampleC1 = expectedC1
      ∧ (nearestBinary32 16562468 (-27) 1234 && nearestBinary32 10276150 (-20) 98001
          && nearestBinary32 16750372 (-29) 312 && nearestBinary32 8388608 (-23) 10000
          && nearestBinary32 8388608 (-24) 5000 && nearestBinary32 13743895 (-37) 1) = true := by
  have hp : payload 10023 sampleC1 = expectedC1 := by decide
  refine ⟨?_, hp, by decide⟩
  simp [loop, emitSample, State.init, sub32, hp]

/-! ## C3: the sampling decision -/

/-- C3: for a 32-bit clock value `now` and any prior `lastPublishMs`, one run of `loop()` reads
the sensor exactly once if `(now - lastPublishMs) mod 2^32 >= 10` and not at all otherwise;
when it reads, `lastPublishMs` becomes `now`, otherwise it is unchanged. -/
theorem C3_rate_limit (mode : Nat) (cfg : Config) (env : LoopEnv) (st : State)
    (hnow : env.millis < 4294967296) :
    (loop mode cfg env st).2.count Effect.mpuGetEvent
        = (if 10 ≤ ((env.millis : Int) - (st.lastPublishMs : Int)) % 4294967296 then 1 else 0)
      ∧ (loop mode cfg env st).1
        = (if 10 ≤ ((env.millis : Int) - (st.lastPublishMs : Int)) % 4294967296
            then ⟨env.millis⟩ else st) := by
  have hm : env.millis % 4294967296 = env.millis := Nat.mod_eq_of_lt hnow
  have hs := sub32_eq env.millis st.lastPublishMs
  rw [loop_count_getEvent, loop_state, hm]
  by_cases h : 10 ≤ ((env.millis : Int) - (st.lastPublishMs : Int)) % 4294967296
  · have h10 : 10 ≤ sub32 env.millis st.lastPublishMs := by omega
    simp [h, h10]
  · have h10 : ¬ 10 ≤ sub32 env.millis st.lastPublishMs := by omega
    simp [h, h10]

/-- C3 at a concrete input: after a clock wrap-around (`lastPublishMs = 2^32 - 3`, `now = 7`)
the 32-bit difference is 10, so the sensor is read once and `lastPublishMs` becomes 7. -/
theorem C3_rate_limit_witness :
    (7 : Nat) < 4294967296
      ∧ (loop 2 demoConfig (envAt 7) ⟨4294967293⟩).2.count Effect.mpuGetEvent = 1
      ∧ (loop 2 demoConfig (envAt 7) ⟨4294967293⟩).1 = ⟨7⟩ :=
  ⟨by decide, C3_rate_limit 2 demoConfig (envAt 7) ⟨4294967293⟩ (by decide)⟩

/-! ## C4: spacing of the readings -/

theorem readingTimes_spacing (mode : Nat) (cfg : Config) (envs : List LoopEnv) :
    ∀ st : State,
      (∀ e ∈ envs, st.lastPublishMs ≤ e.millis) →
      (∀ e ∈ envs, e.millis < 4294967296) →
      List.Pairwise (fun a b => a ≤ b) (envs.map LoopEnv.millis) →
      List.Chain' (fun a b => a + 10 ≤ b) (readingTimes mode cfg envs st)
        ∧ ∀ t ∈ readingTimes mode cfg envs st, st.lastPublishMs + 10 ≤ t := by
  induction envs with
  | nil => intro st _ _ _; simp [readingTimes]
  | cons e es ih =>
    intro st hlast hrange hmono
    have he : e.millis < 4294967296 := hrange e (List.mem_cons_self _ _)
    have hle : st.lastPublishMs ≤ e.millis := hlast e (List.mem_cons_self _ _)
    have hm : e.millis % 4294967296 = e.millis := Nat.mod_eq_of_lt he
    rw [List.map_cons, List.pairwise_cons] at hmono
    have hlater : ∀ x ∈ es, e.millis ≤ x.millis := fun x hx =>
      hmono.1 x.millis (List.mem_map_of_mem _ hx)
    have hrange2 : ∀ x ∈ es, x.millis < 4294967296 := fun x hx =>
      hrange x (List.mem_cons_of_mem _ hx)
    have hsub : sub32 e.millis st.lastPublishMs = e.millis - st.lastPublishMs :=
      sub32_of_le _ _ he hle
    simp only [readingTimes, loop_reads_iff, loop_state, hm, hsub]
    by_cases h : 10 ≤ e.millis - st.lastPublishMs
    · obtain ⟨hc, hall⟩ := ih ⟨e.millis⟩ hlater hrange2 hmono.2
      simp only [h, if_true, List.singleton_append]
      refine ⟨?_, ?_⟩
      · rw [List.chain'_cons']
        refine ⟨fun y hy => ?_, hc⟩
        exact hall y (List.mem_of_mem_head? hy)
      · intro t ht
        rcases List.mem_cons.mp ht with h1 | h1
        · omega
        · have := hall t h1
          simp only at this
          omega
    · have hlast2 : ∀ x ∈ es, st.lastPublishMs ≤ x.millis := fun x hx =>
        le_trans hle (hlater x hx)
      simpa [h] using ih st hlast2 hrange2 hmono.2

/-- C4: in a run of `loop()` from `lastPublishMs = 0` whose 32-bit clock readings never
decrease, two successive sensor readings are at least 10 ms apart and none happens before
the clock reaches 10 ms. -/
theorem C4_spacing (mode : Nat) (cfg : Config) (envs : List LoopEnv)
    (hrange : ∀ e ∈ envs, e.millis < 4294967296)
    (hmono : List.Pairwise (fun a b => a ≤ b) (envs.map LoopEnv.millis)) :
    List.Chain' (fun a b => a + 10 ≤ b) (readingTimes mode cfg envs State.init)
      ∧ ∀ t ∈ readingTimes mode cfg envs State.init, 10 ≤ t := by
  have h := readingTimes_spacing mode cfg envs State.init
    (fun e _ => Nat.zero_le _) hrange hmono
  refine ⟨h.1, fun t ht => ?_⟩
  have := h.2 t ht
  simp only [State.init] at this
  omega

/-- C4 on the clock readings 0, 9, 10, 15, 19, 20, 35: the readings happen at 10, 20 and 35. -/
theorem C4_spacing_witness :
    readingTimes 2 demoConfig [envAt 0, envAt 9, envAt 10, envAt 15, envAt 19, envAt 20, envAt 35]
        State.init = [10, 20, 35]
      ∧ List.Chain' (fun a b => a + 10 ≤ b)
          (readingTimes 2 demoConfig
            [envAt 0, envAt 9, envAt 10, envAt 15, envAt 19, envAt 20, envAt 35] State.init)
      ∧ ∀ t ∈ readingTimes 2 demoConfig
            [envAt 0, envAt 9, envAt 10, envAt 15, envAt 19, envAt 20, envAt 35] State.init,
          10 ≤ t :=
  ⟨by decide,
   C4_spacing 2 demoConfig [envAt 0, envAt 9, envAt 10, envAt 15, envAt 19, envAt 20, envAt 35]
     (by simp [envAt]) (by simp [envAt])⟩

/-! ## C5: one reconnect attempt per iteration -/

theorem loop_mode2_trace (cfg : Config) (env : LoopEnv) (st : State) :
    (loop 2 cfg env st).2
      = sessionUpkeep 2 cfg env ++ samplingCalls cfg env.millis env.reading st := by
  by_cases h : 10 ≤ sub32 (env.millis % 4294967296) st.lastPublishMs
  · simp [loop, samplingCalls, emitSample, h]
  · simp [loop, samplingCalls, h]

theorem samplingCalls_no_connect (cfg : Config) (ms : Nat) (r : Reading) (st : State) :
    (samplingCalls cfg ms r st).countP Effect.isConnect = 0 := by
  unfold samplingCalls
  split <;> simp [Effect.isConnect]

/-- C5: in network-publish mode an iteration that finds the session down makes exactly one
`mqttClient.connect` call, under the client id `ESP32Client` with the configured
credentials, before `mqttClient.loop()` and before the clock read, sensor read and publish;
those later calls and the resulting state are the same as when the session is up and do not
depend on the result of the attempt; an iteration that finds the session up makes no attempt. -/
theorem C5_reconnect_once (cfg : Config) (wu co po : Bool) (ms : Nat) (r : Reading) (st : State) :
    (loop 2 cfg ⟨false, wu, co, ms, r, po⟩ st).2
        = [.mqttConnected, .serialPrint "WiFi status: ", .wifiStatus,
           .serialPrintln (if wu then "Connected" else "Disconnected"),
           .mqttConnect "ESP32Client" (some (cfg.MQTT_USER, cfg.MQTT_PSWD)), .mqttLoop]
          ++ samplingCalls cfg ms r st
      ∧ (loop 2 cfg ⟨true, wu, co, ms, r, po⟩ st).2
        = [.mqttConnected, .mqttLoop] ++ samplingCalls cfg ms r st
      ∧ (loop 2 cfg ⟨false, wu, co, ms, r, po⟩ st).2.countP Effect.isConnect = 1
      ∧ (loop 2 cfg ⟨true, wu, co, ms, r, po⟩ st).2.countP Effect.isConnect = 0
      ∧ loop 2 cfg ⟨false, wu, true, ms, r, po⟩ st = loop 2 cfg ⟨false, wu, false, ms, r, po⟩ st
      ∧ (loop 2 cfg ⟨false, wu, co, ms, r, po⟩ st).1 = (loop 2 cfg ⟨true, wu, co, ms, r, po⟩ st).1 := by
  have hc := samplingCalls_no_connect cfg ms r st
  refine ⟨?_, ?_, ?_, ?_, ?_, ?_⟩
  · rw [loop_mode2_trace]; simp [sessionUpkeep, connectToMQTT]
  · rw [loop_mode2_trace]; simp [sessionUpkeep]
  · rw [loop_mode2_trace]
    simp [sessionUpkeep, connectToMQTT, List.countP_cons, Effect.isConnect, hc]
  · rw [loop_mode2_trace]
    simp [sessionUpkeep, List.countP_cons, Effect.isConnect, hc]
  · simp [loop, sessionUpkeep, connectToMQTT]
  · simp [loop_state]

/-! ## C6: sensor absent at bring-up -/

theorem serialOutput_replicate_delay (n ms : Nat) :
    serialOutput (List.replicate n (Effect.delay ms)) = [] := by
  induction n with
  | zero => rfl
  | succ k ih =>
    simp only [serialOutput, List.replicate_succ, List.map_cons, List.flatten_cons] at ih ⊢
    simp [Effect.serialChars]

/-- C6: when `mpu.begin()` reports the sensor absent, `setup()` prints the failure message
and has not returned after any number of rounds of its `delay(100)` loop; the whole program
then consists of `Serial.begin`, `mpu.begin`, the message and delays only: no sensor
configuration, no WiFi or MQTT call, no run of `loop()`, and the serial line carries the
failure message and nothing else. -/
theorem C6_sensor_absent_halts (mode : Nat) (cfg : Config) (poll : Nat → Bool) (wu co : Bool)
    (fuel : Nat) (envs : List LoopEnv) :
    setup mode cfg ⟨false, poll, wu, co⟩ fuel = ⟨haltTrace fuel, false⟩
      ∧ program mode cfg ⟨false, poll, wu, co⟩ fuel envs
        = [.serialBegin 115200, .mpuBegin, .serialPrintln "Failed to find MPU6050 chip"]
          ++ List.replicate fuel (.delay 100)
      ∧ serialOutput (program mode cfg ⟨false, poll, wu, co⟩ fuel envs)
        = "Failed to find MPU6050 chip\r\n".data
      ∧ ∀ e ∈ program mode cfg ⟨false, poll, wu, co⟩ fuel envs,
          e.isNetwork = false ∧ (∀ s, e ≠ .mpuSet s) ∧ e ≠ .mpuGetEvent ∧ e ≠ .millis := by
  have hs : setup mode cfg ⟨false, poll, wu, co⟩ fuel = ⟨haltTrace fuel, false⟩ := by
    simp [setup, haltTrace]
  have hp : program mode cfg ⟨false, poll, wu, co⟩ fuel envs = haltTrace fuel := by
    simp [program, hs]
  refine ⟨hs, hp, ?_, ?_⟩
  · rw [hp]
    have h := serialOutput_replicate_delay fuel 100
    simp only [serialOutput] at h
    simp [haltTrace, serialOutput, Effect.serialChars, h]
  · intro e he
    rw [hp] at he
    simp only [haltTrace, List.mem_append, List.mem_cons, List.mem_replicate] at he
    rcases he with (h | h | h | h) | h
    · subst h; simp [Effect.isNetwork]
    · subst h; simp [Effect.isNetwork]
    · subst h; simp [Effect.isNetwork]
    · simp at h
    · rw [h.2]; simp [Effect.isNetwork]

/-! ## C7: the modes without network publication -/

theorem loop_no_network (mode : Nat) (hmode : mode ≠ 2) (cfg : Config) (env : LoopEnv)
    (st : State) : ∀ e ∈ (loop mode cfg env st).2, e.isNetwork = false := by
  intro e he
  by_cases h : 10 ≤ sub32 (env.millis % 4294967296) st.lastPublishMs
  · by_cases h1 : mode = 1
    · simp [loop, h, sessionUpkeep, emitSample, h1, serialSample] at he
      rcases he with h | h | h | h | h | h | h | h | h | h | h | h | h | h | h | h | h <;>
        (subst h; rfl)
    · simp [loop, h, sessionUpkeep, emitSample, h1, hmode] at he
      rcases he with h | h <;> (subst h; rfl)
  · simp [loop, h, sessionUpkeep, hmode] at he
    subst he; rfl

theorem runLoop_no_network (mode : Nat) (hmode : mode ≠ 2) (cfg : Config)
    (envs : List LoopEnv) : ∀ st : State, ∀ e ∈ (runLoop mode cfg envs st).2, e.isNetwork = false := by
  induction envs with
  | nil => intro st e he; simp [runLoop] at he
  | cons env rest ih =>
    intro st e he
    simp only [runLoop, List.mem_append] at he
    rcases he with h | h
    · exact loop_no_network mode hmode cfg env st e h
    · exact ih _ e h

theorem setup_no_network (mode : Nat) (hmode : mode ≠ 2) (cfg : Config) (boot : BootEnv)
    (fuel : Nat) : ∀ e ∈ (setup mode cfg boot fuel).trace, e.isNetwork = false := by
  intro e he
  cases hb : boot.mpuPresent with
  | true =>
    simp [setup, hb, hmode] at he
    rcases he with h | h | h | h | h <;> (subst h; rfl)
  | false =>
    simp [setup, hb] at he
    rcases he with h | h | h | h
    · subst h; rfl
    · subst h; rfl
    · subst h; rfl
    · rw [h.2]; rfl

/-- C7: for every value of `LOGGING_MODE` other than 2, `setup()`, every run of `loop()` and
the whole program make no call on the network side (WiFi, TLS client, MQTT client); and for
every state and environment the new `lastPublishMs` and the decision to read the sensor are
the same under any two values of `LOGGING_MODE`. -/
theorem C7_mode_independence (mode : Nat) (hmode : mode ≠ 2) (cfg : Config) :
    (∀ (boot : BootEnv) (fuel : Nat), ∀ e ∈ (setup mode cfg boot fuel).trace, e.isNetwork = false)
      ∧ (∀ (env : LoopEnv) (st : State), ∀ e ∈ (loop mode cfg env st).2, e.isNetwork = false)
      ∧ (∀ (boot : BootEnv) (fuel : Nat) (envs : List LoopEnv),
          ∀ e ∈ program mode cfg boot fuel envs, e.isNetwork = false)
      ∧ (∀ (m1 m2 : Nat) (env : LoopEnv) (st : State),
          (loop m1 cfg env st).1 = (loop m2 cfg env st).1
            ∧ (Effect.mpuGetEvent ∈ (loop m1 cfg env st).2
                ↔ Effect.mpuGetEvent ∈ (loop m2 cfg env st).2)
            ∧ (loop m1 cfg env st).2.count Effect.mpuGetEvent
                = (loop m2 cfg env st).2.count Effect.mpuGetEvent) := by
  refine ⟨fun boot fuel => setup_no_network mode hmode cfg boot fuel,
    fun env st => loop_no_network mode hmode cfg env st, ?_, ?_⟩
  · intro boot fuel envs e he
    unfold program at he
    by_cases hr : (setup mode cfg boot fuel).returned = true
    · simp only [hr, if_true, List.mem_append] at he
      rcases he with h | h
      · exact setup_no_network mode hmode cfg boot fuel e h
      · exact runLoop_no_network mode hmode cfg envs _ e h
    · simp only [hr] at he
      exact setup_no_network mode hmode cfg boot fuel e he
  · intro m1 m2 env st
    simp [loop_state, loop_reads_iff, loop_count_getEvent]

/-- C7 in serial mode over a bring-up and the clock readings 0, 10, 12: no call of the program
is on the network side, and the readings are taken at the same instant as in mode 2. -/
theorem C7_mode_independence_witness :
    (1 : Nat) ≠ 2
      ∧ (∀ e ∈ program 1 demoConfig ⟨true, fun _ => true, true, true⟩ 3
            [envAt 0, envAt 10, envAt 12], e.isNetwork = false)
      ∧ readingTimes 1 demoConfig [envAt 0, envAt 10, envAt 12] State.init
          = readingTimes 2 demoConfig [envAt 0, envAt 10, envAt 12] State.init :=
  ⟨by decide,
   (C7_mode_independence 1 (by decide) demoConfig).2.2.1 ⟨true, fun _ => true, true, true⟩ 3
     [envAt 0, envAt 10, envAt 12],
   by decide⟩

/-! ## C8: one publish per reading, result ignored -/

/-- C8: in network-publish mode, an iteration that reads the sensor makes exactly one publish
call; it is the last call of the iteration, goes to the configured topic and carries the
payload of that reading stamped with the value stored in `lastPublishMs`; the result of
`loop()` is the same whether the publish succeeds or fails, and the state it leaves does not
depend on the reading, so nothing of the payload is kept. -/
theorem C8_publish_once (cfg : Config) (env : LoopEnv) (st : State)
    (hread : Effect.mpuGetEvent ∈ (loop 2 cfg env st).2) :
    (loop 2 cfg env st).2.countP Effect.isPublish = 1
      ∧ (loop 2 cfg env st).2.getLast?
        = some (.mqttPublish cfg.MQTT_TOPIC_IMU_TEST
            (payload (loop 2 cfg env st).1.lastPublishMs env.reading))
      ∧ (loop 2 cfg env st).1.lastPublishMs = env.millis % 4294967296
      ∧ loop 2 cfg { env with publishOk := true } st = loop 2 cfg { env with publishOk := false } st
      ∧ ∀ r : Reading, (loop 2 cfg { env with reading := r } st).1 = (loop 2 cfg env st).1 := by
  rw [loop_reads_iff] at hread
  refine ⟨?_, ?_, ?_, ?_, ?_⟩
  · rw [loop_mode2_trace]
    cases hc : env.mqttConnected <;>
      simp [sessionUpkeep, connectToMQTT, samplingCalls, hread, hc, List.countP_cons,
        Effect.isPublish]
  · rw [loop_mode2_trace, loop_state]
    simp [samplingCalls, hread, List.getLast?_append]
  · simp [loop_state, hread]
  · simp [loop, sessionUpkeep, connectToMQTT]
  · intro r
    simp [loop_state]

/-- C8 at `now = 10023` from the initial state: one publish of the expected payload, and
`lastPublishMs` becomes 10023. -/
theorem C8_publish_once_witness :
    Effect.mpuGetEvent ∈ (loop 2 demoConfig (envAt 10023) State.init).2
      ∧ (loop 2 demoConfig (envAt 10023) State.init).2.countP Effect.isPublish = 1
      ∧ (loop 2 demoConfig (envAt 10023) State.init).1.lastPublishMs = 10023 :=
  ⟨by decide,
   (C8_publish_once demoConfig (envAt 10023) State.init (by decide)).1,
   (C8_publish_once demoConfig (envAt 10023) State.init (by decide)).2.2.1⟩

/-! ## Lemmas on the decimal renderings -/

theorem digitChar_isDigit : ∀ d, d < 10 → (digitChar d).isDigit = true := by decide

theorem digitChar_toNat : ∀ d, d < 10 → (digitChar d).toNat - 48 = d := by decide

theorem decimalAux_digits (fuel : Nat) :
    ∀ (n : Nat) (acc : List Char), (∀ c ∈ acc, c.isDigit = true) →
      ∀ c ∈ decimalAux fuel n acc, c.isDigit = true := by
  induction fuel with
  | zero => intro n acc h; simpa [decimalAux] using h
  | succ k ih =>
    intro n acc h
    have hd : (digitChar (n % 10)).isDigit = true :=
      digitChar_isDigit _ (Nat.mod_lt _ (by decide))
    have h2 : ∀ c ∈ digitChar (n % 10) :: acc, c.isDigit = true := by
      intro c hc
      rcases List.mem_cons.mp hc with h1 | h1
      · rw [h1]; exact hd
      · exact h c h1
    simp only [decimalAux]
    split
    · exact h2
    · exact ih _ _ h2

theorem decimalAux_length_ge (fuel : Nat) :
    ∀ (n : Nat) (acc : List Char), acc.length ≤ (decimalAux fuel n acc).length := by
  induction fuel with
  | zero => intro n acc; simp [decimalAux]
  | succ k ih =>
    intro n acc
    simp only [decimalAux]
    split
    · simp
    · exact le_trans (by simp) (ih _ _)

theorem decimalAux_length_le (fuel : Nat) :
    ∀ (n : Nat) (acc : List Char) (k : Nat), n < 10 ^ (k + 1) →
      (decimalAux fuel n acc).length ≤ acc.length + (k + 1) := by
  induction fuel with
  | zero => intro n acc k _; simp [decimalAux]
  | succ f ih =>
    intro n acc k hn
    simp only [decimalAux]
    split
    · simp
    · rename_i hq
      cases k with
      | zero =>
        exfalso
        apply hq
        simp only [zero_add, pow_one] at hn
        omega
      | succ j =>
        have hdiv : n / 10 < 10 ^ (j + 1) := by
          apply Nat.div_lt_of_lt_mul
          rw [← pow_succ']
          exact hn
        have := ih (n / 10) (digitChar (n % 10) :: acc) j hdiv
        simp only [List.length_cons] at this
        omega

theorem digitsValue_cons (c : Char) (s : List Char) :
    digitsValue (c :: s) = (c.toNat - 48) * 10 ^ s.length + digitsValue s := by
  have key : ∀ (t : List Char) (a : Nat),
      t.foldl (fun a c => 10 * a + (c.toNat - 48)) a
        = a * 10 ^ t.length + t.foldl (fun a c => 10 * a + (c.toNat - 48)) 0 := by
    intro t
    induction t with
    | nil => intro a; simp
    | cons d t ih =>
      intro a
      simp only [List.foldl_cons, List.length_cons]
      rw [ih (10 * a + (d.toNat - 48)), ih (10 * 0 + (d.toNat - 48))]
      ring
  unfold digitsValue
  simp only [List.foldl_cons]
  rw [key]
  simp

theorem decimalAux_value (fuel : Nat) :
    ∀ (n : Nat) (acc : List Char), n < fuel →
      digitsValue (decimalAux fuel n acc) = n * 10 ^ acc.length + digitsValue acc := by
  induction fuel with
  | zero => intro n acc h; omega
  | succ f ih =>
    intro n acc hn
    simp only [decimalAux]
    split
    · rename_i hq
      have hlt : n < 10 := by omega
      have hmod : n % 10 = n := Nat.mod_eq_of_lt hlt
      rw [digitsValue_cons, hmod, digitChar_toNat n hlt]
    · rename_i hq
      have hlt : n / 10 < f := by omega
      rw [ih (n / 10) _ hlt, digitsValue_cons,
        digitChar_toNat (n % 10) (Nat.mod_lt _ (by decide))]
      simp only [List.length_cons, pow_succ]
      have h10 : n = 10 * (n / 10) + n % 10 := (Nat.div_add_mod n 10).symm
      generalize n / 10 = q at h10 ⊢
      generalize n % 10 = d at h10 ⊢
      subst h10
      ring

theorem decimal_isDigits (n : Nat) : IsDigits (decimal n) := by
  constructor
  · intro h
    have h1 : decimal n = decimalAux (n + 1) n [] := rfl
    have h2 : ([] : List Char).length + 1 ≤ (decimal n).length := by
      rw [h1]
      simp only [decimalAux]
      split
      · simp
      · exact le_trans (by simp) (decimalAux_length_ge _ _ _)
    rw [h] at h2
    simp at h2
  · exact decimalAux_digits _ _ _ (by simp)

theorem digitChar_ne_zero : ∀ d, d < 10 → 0 < d → digitChar d ≠ '0' := by decide

theorem decimalAux_head (fuel : Nat) :
    ∀ (n : Nat) (acc : List Char), n < fuel → 0 < n →
      (decimalAux fuel n acc).head? ≠ some '0' := by
  induction fuel with
  | zero => intro n acc h; omega
  | succ f ih =>
    intro n acc hn hpos
    simp only [decimalAux]
    split
    · rename_i hq
      have hlt : n < 10 := by omega
      have hmod : n % 10 = n := Nat.mod_eq_of_lt hlt
      rw [hmod]
      simp only [List.head?_cons, ne_eq, Option.some.injEq]
      exact digitChar_ne_zero n hlt hpos
    · rename_i hq
      exact ih (n / 10) _ (by omega) (by omega)

theorem decimal_isNumeral (n : Nat) : IsNumeral (decimal n) := by
  refine ⟨decimal_isDigits n, fun h => ?_⟩
  rcases Nat.eq_zero_or_pos n with h0 | hpos
  · subst h0; rfl
  · exact absurd h (decimalAux_head (n + 1) n [] (Nat.lt_succ_self n) hpos)

theorem decimal_value (n : Nat) : digitsValue (decimal n) = n := by
  unfold decimal
  rw [decimalAux_value (n + 1) n [] (Nat.lt_succ_self n)]
  simp [digitsValue]

theorem decimal_length_le (n k : Nat) (h : n < 10 ^ (k + 1)) : (decimal n).length ≤ k + 1 := by
  have := decimalAux_length_le (n + 1) n [] k h
  simpa [decimal] using this

theorem pad4_length (k : Nat) : (pad4 k).length = 4 := rfl

theorem pad4_digits (k : Nat) : ∀ c ∈ pad4 k, c.isDigit = true := by
  intro c hc
  simp only [pad4, List.mem_cons, List.mem_nil_iff, or_false] at hc
  rcases hc with h | h | h | h <;>
    (rw [h]; exact digitChar_isDigit _ (Nat.mod_lt _ (by decide)))

theorem fixed4_isFixed4 (neg : Bool) (n : Nat) : IsFixed4 (fixed4 neg n) := by
  refine ⟨if neg then ['-'] else [], decimal (n / 10000), pad4 (n % 10000), rfl, ?_,
    decimal_isNumeral _, pad4_length _, pad4_digits _⟩
  cases neg <;> simp

theorem fixed4_length_le (neg : Bool) (n k : Nat) (h : n / 10000 < 10 ^ (k + 1)) :
    (fixed4 neg n).length ≤ k + 7 := by
  have h1 := decimal_length_le (n / 10000) k h
  have h2 := pad4_length (n % 10000)
  unfold fixed4
  cases neg <;> simp [h2] <;> omega

theorem roundHalfEven_le (n d : Nat) : roundHalfEven n d ≤ n / d + 1 := by
  unfold roundHalfEven
  simp only
  split <;> omega

theorem dyDen_pos (e : Int) : 0 < dyDen e := by
  unfold dyDen
  positivity

theorem fmtF4_length_le (x : CFloat) (h : x.absLt 1000 = true) : (fmtF4 x).length ≤ 10 := by
  cases x with
  | nan neg => simp [CFloat.absLt] at h
  | inf neg => simp [CFloat.absLt] at h
  | fin neg m e =>
    simp only [CFloat.absLt, decide_eq_true_eq] at h
    have hd := dyDen_pos e
    have hq : dyNum m e * 10000 / dyDen e < 10000000 := by
      apply Nat.div_lt_of_lt_mul
      nlinarith
    have hr := roundHalfEven_le (dyNum m e * 10000) (dyDen e)
    have hn : roundHalfEven (dyNum m e * 10000) (dyDen e) / 10000 < 10 ^ (3 + 1) := by
      have : roundHalfEven (dyNum m e * 10000) (dyDen e) ≤ 10000000 := by omega
      norm_num
      omega
    exact fixed4_length_le neg _ 3 hn

theorem fmtLu_length_le (n : Nat) : (fmtLu n).length ≤ 10 := by
  unfold fmtLu
  apply decimal_length_le _ 9
  have : n % 4294967296 < 4294967296 := Nat.mod_lt _ (by decide)
  norm_num
  omega

theorem formatPayload_length (now : Nat) (r : Reading) :
    (formatPayload now r).length
      = 43 + (fmtLu now).length + (fmtF4 r.ax).length + (fmtF4 r.ay).length
        + (fmtF4 r.az).length + (fmtF4 r.gx).length + (fmtF4 r.gy).length
        + (fmtF4 r.gz).length := by
  simp only [formatPayload, List.length_append, List.length_cons, List.length_nil]
  omega

theorem payload_of_fits (now : Nat) (r : Reading) (h : (formatPayload now r).length ≤ 255) :
    (payload now r).data = formatPayload now r := by
  simp only [payload, snprintf]
  exact List.take_of_length_le h

theorem fmtF4_isFixed4 (x : CFloat) (bound : Nat) (h : x.absLt bound = true) :
    IsFixed4 (fmtF4 x) := by
  cases x with
  | nan neg => simp [CFloat.absLt] at h
  | inf neg => simp [CFloat.absLt] at h
  | fin neg m e => exact fixed4_isFixed4 neg _

theorem formatPayload_getLast (now : Nat) (r : Reading) :
    (formatPayload now r).getLast? = some '\x7d' := by
  unfold formatPayload
  exact List.getLast?_concat _

theorem formatPayload_fits (now : Nat) (r : Reading) (h : r.absLt 1000 = true) :
    (formatPayload now r).length ≤ 113 := by
  simp only [Reading.absLt, Bool.and_eq_true] at h
  obtain ⟨⟨⟨⟨⟨h1, h2⟩, h3⟩, h4⟩, h5⟩, h6⟩ := h
  have l0 := fmtLu_length_le now
  have l1 := fmtF4_length_le _ h1
  have l2 := fmtF4_length_le _ h2
  have l3 := fmtF4_length_le _ h3
  have l4 := fmtF4_length_le _ h4
  have l5 := fmtF4_length_le _ h5
  have l6 := fmtF4_length_le _ h6
  rw [formatPayload_length]
  omega

/-! ## C2: shape of the payload -/

/-- C2: for every timestamp and every six sensor readings (finite values inside the ranges
configured by `setup()`, all of absolute value below 1000), the payload that `loop()`
publishes in network-publish mode is a single JSON object with exactly the keys
`ts, ax, ay, az, gx, gy, gz` in that order, `ts` being the decimal numeral of the 32-bit
timestamp and each other value a decimal with exactly four digits after the point. -/
theorem C2_payload_shape (cfg : Config) (now : Nat) (r : Reading)
    (hrange : r.absLt 1000 = true) :
    emitSample 2 cfg now r = [.mqttPublish cfg.MQTT_TOPIC_IMU_TEST (payload now r)]
      ∧ IsSampleJson (payload now r).data (now % 4294967296) := by
  refine ⟨by simp [emitSample], ?_⟩
  have hfit : (formatPayload now r).length ≤ 255 :=
    le_trans (formatPayload_fits now r hrange) (by decide)
  rw [payload_of_fits now r hfit]
  simp only [Reading.absLt, Bool.and_eq_true] at hrange
  obtain ⟨⟨⟨⟨⟨h1, h2⟩, h3⟩, h4⟩, h5⟩, h6⟩ := hrange
  exact ⟨fmtLu now, fmtF4 r.ax, fmtF4 r.ay, fmtF4 r.az, fmtF4 r.gx, fmtF4 r.gy, fmtF4 r.gz,
    rfl, decimal_isNumeral _, decimal_value _,
    fmtF4_isFixed4 _ _ h1, fmtF4_isFixed4 _ _ h2, fmtF4_isFixed4 _ _ h3,
    fmtF4_isFixed4 _ _ h4, fmtF4_isFixed4 _ _ h5, fmtF4_isFixed4 _ _ h6⟩

/-- C2 at the sample of the specification. -/
theorem C2_payload_shape_witness :
    sampleC1.absLt 1000 = true
      ∧ IsSampleJson (payload 10023 sampleC1).data (10023 % 4294967296) :=
  ⟨by decide, (C2_payload_shape demoConfig 10023 sampleC1 (by decide)).2⟩

/-! ## C9: serial text against network payload -/

theorem printFloat_other_divergences :
    String.mk (printFloat (.fin true 0 0) 4) = "0.0000"
      ∧ String.mk (fmtF4 (.fin true 0 0)) = "-0.0000"
      ∧ String.mk (printFloat (.inf true) 4) = "inf"
      ∧ String.mk (fmtF4 (.inf true)) = "-inf"
      ∧ String.mk (printFloat (.nan true) 4) = "nan"
      ∧ String.mk (fmtF4 (.nan true)) = "-nan"
      ∧ String.mk (printFloat (.fin false 1 33) 4) = "ovf"
      ∧ String.mk (fmtF4 (.fin false 1 33)) = "8589934592.0000" := by
  refine ⟨by decide, by decide, by decide, by decide, by decide, by decide, by decide,
    by decide⟩

/-- C9: the code at the failing input. The x acceleration `99.65625` is a `float` inside the
configured range and a tie at the fourth decimal: at `now = 10023` from the initial state,
`loop()` in serial mode writes `99.6563` (`Serial.print(x, 4)`), while `loop()` in
network-publish mode publishes `99.6562` (`%.4f`), so the serial text before the line
terminator is not the published payload. -/
theorem C9_serial_differs_at_tie :
    tieReading.isBinary32 = true ∧ tieReading.absLt 1000 = true
      ∧ serialOutput (loop 1 demoConfig tieEnv State.init).2
        = "\x7b\"ts\":10023,\"ax\":99.6563,\"ay\":0.0000,\"az\":0.0000,\"gx\":0.0000,\"gy\":0.0000,\"gz\":0.0000\x7d\r\n".data
      ∧ (loop 2 demoConfig tieEnv State.init).2.getLast?
        = some (.mqttPublish "imu/test"
            "\x7b\"ts\":10023,\"ax\":99.6562,\"ay\":0.0000,\"az\":0.0000,\"gx\":0.0000,\"gy\":0.0000,\"gz\":0.0000\x7d")
      ∧ serialOutput (emitSample 1 demoConfig 10023 tieReading)
        ≠ (payload 10023 tieReading).data ++ ['\r', '\n'] := by
  refine ⟨by decide, by decide, by decide, by decide, by decide⟩

/-! ## C10: the payload fits the buffer -/

/-- C10: for every timestamp and every six readings of absolute value below 1000, the
formatted text has at most 255 characters, so `snprintf` stores it whole in the 256-byte
buffer and the published text ends with the closing brace. -/
theorem C10_payload_fits (now : Nat) (r : Reading) (h : r.absLt 1000 = true) :
    (formatPayload now r).length ≤ 255
      ∧ (payload now r).data = formatPayload now r
      ∧ (payload now r).data.getLast? = some '\x7d' := by
  have hlen : (formatPayload now r).length ≤ 255 :=
    le_trans (formatPayload_fits now r h) (by decide)
  refine ⟨hlen, payload_of_fits now r hlen, ?_⟩
  rw [payload_of_fits now r hlen]
  exact formatPayload_getLast now r

/-- C10 at the largest timestamp with `-(1000 - 2^-14)`, the `float` next to `-1000`, on every
axis: the text has 107 characters and is stored whole. -/
theorem C10_payload_fits_witness :
    (Reading.all (.fin true 16383999 (-14))).absLt 1000 = true
      ∧ (formatPayload 4294967295 (Reading.all (.fin true 16383999 (-14)))).length = 107
      ∧ (payload 4294967295 (Reading.all (.fin true 16383999 (-14)))).data.getLast?
        = some '\x7d' :=
  ⟨by decide, by decide,
   (C10_payload_fits 4294967295 (Reading.all (.fin true 16383999 (-14))) (by decide)).2.2⟩

end ImuCollection
